import Mathlib

/-!
Verification of the VictoryCard core (src/core/deck.py, src/core/util.py)
against its natural-language specification.

The Python code is shallowly embedded:
* YAML values (`yaml.safe_load` output) become the inductive `Val`
  (string-keyed mappings, which is the shape every claim is about).
* The filesystem becomes an explicit `FS` record (existence, inode for
  `os.path.samefile`, parsed content for `open` + `yaml.safe_load`,
  modification time for `os.path.getmtime`).
* Exceptions become an explicit `PyErr` sum returned through `Except`.
* The `extends` recursion of `_parse_definitions` is given an explicit
  fuel parameter (`PyErr.outOfFuel` models non-termination, which Python
  would realise as unbounded recursion).
-/

set_option autoImplicit false

/-- A Python value as produced by `yaml.safe_load`: `None`, `bool`, `int`,
`str`, `list`, or a string-keyed `dict` (modelled as an association list
in insertion order, mirroring Python dict ordering). -/
inductive Val where
  | vnull : Val
  | vbool (b : Bool) : Val
  | vint (n : Int) : Val
  | vstr (s : String) : Val
  | vlist (elems : List Val) : Val
  | vdict (entries : List (String × Val)) : Val

/-- A Python dict with string keys: association list in insertion order. -/
abbrev PyDict := List (String × Val)

/-- The Python runtime type of a value, for `isinstance` / `type` checks. -/
inductive PyType where
  | tnone | tbool | tint | tstr | tlist | tdict
deriving DecidableEq

/-- `type(v)` for our embedded values. -/
def pyTypeOf : Val → PyType
  | .vnull => .tnone
  | .vbool _ => .tbool
  | .vint _ => .tint
  | .vstr _ => .tstr
  | .vlist _ => .tlist
  | .vdict _ => .tdict

/-- Python `isinstance(v, t)`; `bool` is a subclass of `int`. -/
def pyIsinstance (v : Val) (t : PyType) : Bool :=
  pyTypeOf v == t || (pyTypeOf v == .tbool && t == .tint)

/-- The exceptions the embedded code can raise.  `fileNotFound` models
`FileNotFoundError` (the only `OSError` subtype the code can meet);
`outOfFuel` models running out of recursion fuel. -/
inductive PyErr where
  | deckError (msg : String)
  | cyclicDependency (msg : String)
  | missingDependency (arg : String)
  | fileNotFound (path : String)
  | keyError (key : String)
  | typeError
  | valueError
  | attributeError
  | outOfFuel
deriving DecidableEq

/-- Which errors an `except FileNotFoundError:` clause catches. -/
def PyErr.isFileNotFound : PyErr → Bool
  | .fileNotFound _ => true
  | _ => false

/-- Which errors an `except OSError:` clause catches (here the only
`OSError` the embedded code raises is `FileNotFoundError`). -/
def PyErr.isOSError : PyErr → Bool
  | .fileNotFound _ => true
  | _ => false

/-- First match wins, as for Python dict indexing (dicts never hold
duplicate keys, so first-match and only-match coincide). -/
def pyLookup : PyDict → String → Option Val
  | [], _ => none
  | (k1, v) :: rest, k => if k1 = k then some v else pyLookup rest k

/-- `k in d` for a Python dict. -/
def containsKey (d : PyDict) (k : String) : Bool :=
  d.any (fun p => p.1 == k)

/-- `d.get(k, dflt)`. -/
def pyDictGetD (d : PyDict) (k : String) (dflt : Val) : Val :=
  (pyLookup d k).getD dflt

/-- `d[k] = v`: replace in place if the key is present (keeping its
position), else append, as Python dicts do. -/
def setItem : PyDict → String → Val → PyDict
  | [], k, v => [(k, v)]
  | (k1, v1) :: rest, k, v =>
    if k1 = k then (k1, v) :: rest else (k1, v1) :: setItem rest k v

/-- `d.pop(k, ...)`'s effect on the dict: remove the entry for `k`
(keys are unique in a Python dict, so removing every match and removing
the single match coincide). -/
def removeKey : PyDict → String → PyDict
  | [], _ => []
  | (k1, v) :: rest, k =>
    if k1 = k then removeKey rest k else (k1, v) :: removeKey rest k

/-- `key.split('.', 1)[0]`: the part before the first dot (the whole
string when there is no dot). -/
def firstSeg (s : String) : String :=
  (s.toList.takeWhile (fun c => c ≠ '.')).asString

/-- `'.' in key`. -/
def hasDot (s : String) : Bool :=
  s.toList.any (fun c => c = '.')

/-- `key.split('.', 1)[1]`: the part after the first dot. -/
def restSeg (s : String) : String :=
  ((s.toList.dropWhile (fun c => c ≠ '.')).drop 1).asString

/-- Is `k` in `{key.split('.', 1)[0] for key in ignore_keys}` —
the set subtracted from the merged key set in `dict_merge`. -/
def topIgnored (ignore_keys : List String) (k : String) : Bool :=
  ignore_keys.any (fun s => firstSeg s == k)

/-- `{key.split('.', 1)[1] for key in ignore_keys if '.' in key}` —
the ignore set passed to the nested `dict_merge` call. -/
def nestedIgnores (ignore_keys : List String) : List String :=
  (ignore_keys.filter hasDot).map restSeg

mutual

/-- The per-key body of `dict_merge` (util.py lines 80-97) for a key
present in both inputs: same-container-kind values recurse (dicts) or
concatenate (lists); anything else resolves to the override value. -/
def merge2 (b o : Val) (ignore_keys : List String) : Val :=
  if pyIsinstance o (pyTypeOf b) then
    match b, o with
    | .vdict bd, .vdict od => .vdict (dict_merge bd od (nestedIgnores ignore_keys))
    | .vlist bl, .vlist ol => .vlist (bl ++ ol)
    | _, o => o
  else o
termination_by (sizeOf b, 0)
decreasing_by
  all_goals simp_wf
  all_goals apply Prod.Lex.left
  all_goals simp

/-- `dict_merge` (util.py lines 70-98).  The Python iterates the key set
`{*base, *overrides} - {first segment of each ignore key}`; we realise the
same key set as: keys of `base` (in order) not top-ignored, then keys only
in `overrides` not top-ignored.  Per-key values are exactly the Python
ones, so the result agrees with the Python dict up to iteration order
(which Python leaves to set ordering anyway). -/
def dict_merge (base overrides : PyDict) (ignore_keys : List String) : PyDict :=
  mergeCommon base overrides ignore_keys ++
    overrides.filter (fun p => !containsKey base p.1 && !topIgnored ignore_keys p.1)
termination_by (sizeOf base, 1)
decreasing_by
  all_goals apply Prod.Lex.right
  all_goals omega

/-- The pass over `base`'s keys inside `dict_merge`. -/
def mergeCommon : PyDict → PyDict → List String → PyDict
  | [], _, _ => []
  | (k, bv) :: rest, overrides, ignore_keys =>
    if topIgnored ignore_keys k then mergeCommon rest overrides ignore_keys
    else
      match pyLookup overrides k with
      | none => (k, bv) :: mergeCommon rest overrides ignore_keys
      | some ov => (k, merge2 bv ov ignore_keys) :: mergeCommon rest overrides ignore_keys
termination_by d _ _ => (sizeOf d, 0)
decreasing_by
  all_goals simp_wf
  all_goals apply Prod.Lex.left
  all_goals omega

end

/-- `os.path.basename` (POSIX): everything after the last slash. -/
def basename (p : String) : String :=
  ((p.toList.reverse.takeWhile (fun c => c ≠ '/')).reverse).asString

/-- `os.path.dirname` (POSIX): everything before the last slash
(empty when there is no slash). -/
def dirname (p : String) : String :=
  (((p.toList.reverse.dropWhile (fun c => c ≠ '/')).drop 1).reverse).asString

/-- `os.path.splitext` on a bare file name (no directory part): split at
the last dot, except that dots leading the name never start an
extension. -/
def splitextName (name : String) : String × String :=
  let cs := name.toList
  let lead := (cs.takeWhile (fun c => c = '.')).length
  let extLen := (cs.reverse.takeWhile (fun c => c ≠ '.')).length
  if extLen = cs.length then (name, "")
  else
    let dotPos := cs.length - extLen - 1
    if dotPos < lead then (name, "")
    else ((cs.take dotPos).asString, (cs.drop dotPos).asString)

/-- `os.path.join(dir, rel)` (POSIX, two arguments). -/
def pyJoin (dir rel : String) : String :=
  if rel.toList.head? = some '/' then rel
  else if dir = "" then rel
  else if dir.toList.getLast? = some '/' then dir ++ rel
  else dir ++ "/" ++ rel

/-- Python `int(str)`: optional surrounding spaces, optional sign,
then a non-empty digit run; anything else is a `ValueError`. -/
def pyStrToInt (s : String) : Option Int :=
  let cs := (s.toList.dropWhile (fun c => c = ' ')).reverse.dropWhile (fun c => c = ' ') |>.reverse
  let digits : List Char → Option Nat := fun ds =>
    if ds ≠ [] ∧ ds.all Char.isDigit then
      some (ds.foldl (fun n c => n * 10 + (c.toNat - 48)) 0)
    else none
  match cs with
  | '-' :: rest => (digits rest).map (fun n => -(n : Int))
  | '+' :: rest => (digits rest).map (fun n => (n : Int))
  | rest => (digits rest).map (fun n => (n : Int))

/-- Python `int(v)` on an embedded value: ints pass through, bools
become 0/1, strings are parsed (`ValueError` on failure), every other
type is a `TypeError`. -/
def pyInt : Val → Except PyErr Int
  | .vint n => .ok n
  | .vbool b => .ok (if b then 1 else 0)
  | .vstr s =>
    match pyStrToInt s with
    | some n => .ok n
    | none => .error .valueError
  | _ => .error .typeError

/-- Is a value Python `None`? (`copies is not None`). -/
def Val.isNull : Val → Bool
  | .vnull => true
  | _ => false

/-- `sanitize_copies` (deck.py lines 50-55).  Returns the sanitized value
together with a flag recording whether the `log.warning` fallback fired.
Only `ValueError` is caught; a `TypeError` from `int()` escapes. -/
def sanitize_copies (copies dflt : Val) : Except PyErr (Val × Bool) :=
  match pyInt (if copies.isNull then dflt else copies) with
  | .ok n => .ok (.vint (max n 0), false)
  | .error .valueError => .ok (dflt, true)
  | .error e => .error e

/-- Python `key in container` as used by `get_first`: dict key test,
substring test on strings, equality-with-a-string membership on lists;
`in` on other values raises `TypeError`. -/
def pyContains (v : Val) (k : String) : Except PyErr Bool :=
  match v with
  | .vdict d => .ok (containsKey d k)
  | .vstr s => .ok (k = "" || (s.splitOn k).length ≥ 2)
  | .vlist l => .ok (l.any (fun e => match e with | .vstr s => s == k | _ => false))
  | _ => .error .typeError

/-- Python `container[key]` with a string key: dict indexing
(`KeyError` when missing); string/list indexing with a string key is a
`TypeError`, as is indexing anything else. -/
def pyGetItem (v : Val) (k : String) : Except PyErr Val :=
  match v with
  | .vdict d =>
    match pyLookup d k with
    | some x => .ok x
    | none => .error (.keyError k)
  | _ => .error .typeError

/-- `get_first` (util.py lines 5-10). -/
def get_first (mapping : Val) (attrs : List String) (dflt : Val) : Except PyErr Val :=
  match attrs with
  | [] => .ok dflt
  | k :: rest =>
    match pyContains mapping k with
    | .error e => .error e
    | .ok true => pyGetItem mapping k
    | .ok false => get_first mapping rest dflt

/-- The filesystem a resolution pass runs against: which paths exist,
their identity for `os.path.samefile` (inode), their parsed YAML content
(`open` + `yaml.safe_load`), and their modification time. -/
structure FS where
  fileExists : String → Bool
  inodeOf : String → Nat
  contentOf : String → Val
  mtimeOf : String → Int

/-- `open(path)` followed by `yaml.safe_load`: `FileNotFoundError` when
the path does not exist. -/
def FS.readYaml (fs : FS) (path : String) : Except PyErr Val :=
  if fs.fileExists path then .ok (fs.contentOf path) else .error (.fileNotFound path)

/-- `os.path.samefile(p, q)`: stats `p` then `q` (raising
`FileNotFoundError` for whichever is missing, `p` checked first), then
compares file identity. -/
def FS.samefile (fs : FS) (p q : String) : Except PyErr Bool :=
  if ¬ fs.fileExists p then .error (.fileNotFound p)
  else if ¬ fs.fileExists q then .error (.fileNotFound q)
  else .ok (fs.inodeOf p == fs.inodeOf q)

/-- `os.path.getmtime`. -/
def FS.getmtime (fs : FS) (path : String) : Except PyErr Int :=
  if fs.fileExists path then .ok (fs.mtimeOf path) else .error (.fileNotFound path)

/-- `_SourceFile` (deck.py lines 32-47): a tracked file.  `os.path.abspath`
is modelled as the identity (the embedding works with absolute paths). -/
structure SourceFile where
  path : String
  dir : String
  name : String
  base : String
  ext : String
  _mtime : Int

/-- `_SourceFile.__init__`: splits the path and records the current
modification time (raising like `os.path.getmtime` if the file is
missing). -/
def mkSourceFile (fs : FS) (path : String) : Except PyErr SourceFile :=
  match fs.getmtime path with
  | .error e => .error e
  | .ok m =>
    let nm := basename path
    .ok { path := path, dir := dirname path, name := nm,
          base := (splitextName nm).1, ext := (splitextName nm).2, _mtime := m }

/-- `_SourceFile.refresh`: report whether the file is newer than last
observed and rebase the stored timestamp either way. -/
def SourceFile.refresh (fs : FS) (sf : SourceFile) : Except PyErr (SourceFile × Bool) :=
  match fs.getmtime sf.path with
  | .error e => .error e
  | .ok m => .ok ({ sf with _mtime := m }, m > sf._mtime)

/-- `find_working_ext` (util.py lines 58-67): trust an explicit
extension, otherwise return the first candidate that exists. -/
def find_working_ext (fs : FS) (base : String) (extensions : List String) : Option String :=
  if (splitextName (basename base)).2 ≠ "" then some base
  else extensions.findSome? (fun ext =>
    if fs.fileExists (base ++ ext) then some (base ++ ext) else none)

/-- The Cyclic Dependency message for direct self-extension
(deck.py lines 77-79). -/
def cyclicSelfMsg (path parent : String) : String :=
  path ++ " wants to extend " ++ parent ++ ", but they are the same file"

/-- The Cyclic Dependency message for an indirect cycle
(deck.py lines 82-85). -/
def cyclicIndirectMsg (path parent : String) : String :=
  path ++ " wants to extend " ++ parent ++ ", but " ++ parent ++
    " already directly or indirectly extends " ++ path

/-- The Invalid Deck Definition message (deck.py line 73). -/
def invalidDefMsg (path : String) : String :=
  "Invalid Deck Definition: " ++ path ++ " (file must be a YAML dictionary)"

/-- The `for child_path in child_paths` loop of `_parse_definitions`
(deck.py lines 80-85): raise Cyclic Dependency at the first child the
parent is the same file as. -/
def checkChildPaths (fs : FS) (path parent_path : String) :
    List String → Except PyErr Unit
  | [] => .ok ()
  | c :: rest =>
    match fs.samefile parent_path c with
    | .error e => .error e
    | .ok true => .error (.cyclicDependency (cyclicIndirectMsg path parent_path))
    | .ok false => checkChildPaths fs path parent_path rest

/-- `_parse_definitions` (deck.py lines 69-96), with explicit recursion
fuel for the `extends` chain.  Note the faithful quirk: the
`os.path.samefile(parent_path, path)` check runs before the
`try/except FileNotFoundError` around the recursive call, so a missing
direct parent escapes as `FileNotFoundError` rather than being converted
to `MissingDependency`. -/
def _parse_definitions (fuel : Nat) (fs : FS) (path : String)
    (child_paths : List String) : Except PyErr (PyDict × List String) :=
  match fuel with
  | 0 => .error .outOfFuel
  | fuel + 1 =>
    match fs.readYaml path with
    | .error e => .error e
    | .ok definitions =>
      match definitions with
      | .vdict defs =>
        match pyLookup defs "extends" with
        | none => .ok (defs, [])
        | some extv =>
          match extv with
          | .vstr ext =>
            let parent_path := pyJoin (dirname path) ext
            match fs.samefile parent_path path with
            | .error e => .error e
            | .ok true => .error (.cyclicDependency (cyclicSelfMsg path parent_path))
            | .ok false =>
              match checkChildPaths fs path parent_path child_paths with
              | .error e => .error e
              | .ok () =>
                match _parse_definitions fuel fs parent_path (path :: child_paths) with
                | .error e =>
                  if e.isFileNotFound then .error (.missingDependency parent_path)
                  else .error e
                | .ok (parent_defs, parent_deps) =>
                  .ok (dict_merge parent_defs defs ["extends"],
                       parent_path :: parent_deps)
          | _ => .error .typeError
      | _ => .error (.deckError (invalidDefMsg path))

/-- Python truthiness, for `value = get_first(...) or default`. -/
def pyTruthy : Val → Bool
  | .vnull => false
  | .vbool b => b
  | .vint n => n != 0
  | .vstr s => s != ""
  | .vlist l => !l.isEmpty
  | .vdict d => !d.isEmpty

/-- Insert-or-replace for a generic association list (Python dict item
assignment: replace in place, else append). -/
def assocSet {α : Type} : List (String × α) → String → α → List (String × α)
  | [], k, v => [(k, v)]
  | (k1, v1) :: rest, k, v =>
    if k1 = k then (k1, v) :: rest else (k1, v1) :: assocSet rest k v

/-- The dict literal `{**d1, **d2}`: keys of `d1` keep their position
(values from `d2` where both have the key), new keys of `d2` follow. -/
def pyUnion (d1 d2 : PyDict) : PyDict :=
  d1.map (fun p => (p.1, (pyLookup d2 p.1).getD p.2)) ++
    d2.filter (fun p => !containsKey d1 p.1)

/-- An entry (`_Card`, deck.py lines 58-66): identifier, the sanitized
`copies` attribute, and the template-visible field mapping
`{**defaults, **data}` built after `data.pop('copies', None)`. -/
structure Card where
  id : String
  copies : Val
  fields : PyDict

/-- `_Card.__init__`: pop `copies` out of the entry data, sanitize it
against the document default, then merge defaults under the remaining
entry data.  Non-mapping entry data has no `.pop` (`AttributeError`). -/
def mkCard (id : String) (defaults : PyDict) (data : Val) : Except PyErr Card :=
  match data with
  | .vdict dd =>
    let popped := (pyLookup dd "copies").getD .vnull
    let dd' := removeKey dd "copies"
    match sanitize_copies popped (pyDictGetD defaults "copies" .vnull) with
    | .error e => .error e
    | .ok (cv, _) => .ok { id := id, copies := cv, fields := pyUnion defaults dd' }
  | _ => .error .attributeError

/-- The committed, externally visible state of a `Deck`. -/
structure Deck where
  source : SourceFile
  sub_sources : List (String × SourceFile) := []
  hierarchy : List SourceFile := []
  title : Val := .vnull
  output : String := ""
  icon_path : Val := .vnull
  card_spacing : Val := .vnull
  embed_styles : Val := .vnull
  markdown : Val := .vnull
  cards : List Card := []
  card_index : List (String × Card) := []

/-- The staged attribute writes of one resolution pass (`_overrides_` of
`TransactionDelegate`, util.py lines 13-40): one optional slot per
attribute `_interpret_source` assigns. -/
structure TxOverrides where
  sub_sources : Option (List (String × SourceFile)) := none
  hierarchy : Option (List SourceFile) := none
  title : Option Val := none
  output : Option String := none
  icon_path : Option Val := none
  card_spacing : Option Val := none
  embed_styles : Option Val := none
  markdown : Option Val := none
  cards : Option (List Card) := none
  card_index : Option (List (String × Card)) := none

/-- `TransactionDelegate` (util.py lines 13-40): reads fall back from the
overlay to the live object, writes go to the overlay only. -/
structure TransactionDelegate where
  _delegate_ : Deck
  _overrides_ : TxOverrides

/-- Read `self.source` through the delegate (never overridden by the
pass, so it falls through to the live object). -/
def TransactionDelegate.getSource (t : TransactionDelegate) : SourceFile :=
  t._delegate_.source

/-- Read `self.sub_sources` through the delegate (overlay first). -/
def TransactionDelegate.getSubSources (t : TransactionDelegate) :
    List (String × SourceFile) :=
  t._overrides_.sub_sources.getD t._delegate_.sub_sources

def TransactionDelegate.setSubSources (t : TransactionDelegate)
    (v : List (String × SourceFile)) : TransactionDelegate :=
  { t with _overrides_ := { t._overrides_ with sub_sources := some v } }

def TransactionDelegate.setHierarchy (t : TransactionDelegate)
    (v : List SourceFile) : TransactionDelegate :=
  { t with _overrides_ := { t._overrides_ with hierarchy := some v } }

def TransactionDelegate.setTitle (t : TransactionDelegate) (v : Val) :
    TransactionDelegate :=
  { t with _overrides_ := { t._overrides_ with title := some v } }

def TransactionDelegate.setOutput (t : TransactionDelegate) (v : String) :
    TransactionDelegate :=
  { t with _overrides_ := { t._overrides_ with output := some v } }

def TransactionDelegate.setIconPath (t : TransactionDelegate) (v : Val) :
    TransactionDelegate :=
  { t with _overrides_ := { t._overrides_ with icon_path := some v } }

def TransactionDelegate.setCardSpacing (t : TransactionDelegate) (v : Val) :
    TransactionDelegate :=
  { t with _overrides_ := { t._overrides_ with card_spacing := some v } }

def TransactionDelegate.setEmbedStyles (t : TransactionDelegate) (v : Val) :
    TransactionDelegate :=
  { t with _overrides_ := { t._overrides_ with embed_styles := some v } }

def TransactionDelegate.setMarkdown (t : TransactionDelegate) (v : Val) :
    TransactionDelegate :=
  { t with _overrides_ := { t._overrides_ with markdown := some v } }

def TransactionDelegate.setCards (t : TransactionDelegate) (v : List Card) :
    TransactionDelegate :=
  { t with _overrides_ := { t._overrides_ with cards := some v } }

def TransactionDelegate.setCardIndex (t : TransactionDelegate)
    (v : List (String × Card)) : TransactionDelegate :=
  { t with _overrides_ := { t._overrides_ with card_index := some v } }

/-- `TransactionDelegate.commit` (util.py lines 38-40): write every
staged override back onto the live object. -/
def TransactionDelegate.commit (t : TransactionDelegate) : Deck :=
  let d := t._delegate_
  let o := t._overrides_
  { source := d.source
    sub_sources := o.sub_sources.getD d.sub_sources
    hierarchy := o.hierarchy.getD d.hierarchy
    title := o.title.getD d.title
    output := o.output.getD d.output
    icon_path := o.icon_path.getD d.icon_path
    card_spacing := o.card_spacing.getD d.card_spacing
    embed_styles := o.embed_styles.getD d.embed_styles
    markdown := o.markdown.getD d.markdown
    cards := o.cards.getD d.cards
    card_index := o.card_index.getD d.card_index }

/-- `transactional` (util.py lines 43-55): run the method against a
fresh delegate; commit the overlay on success, re-raise on failure
leaving the live object as it was. -/
def transactional
    (method : TransactionDelegate → Except PyErr TransactionDelegate)
    (d : Deck) : Deck × Option PyErr :=
  match method { _delegate_ := d, _overrides_ := {} } with
  | .ok t => (t.commit, none)
  | .error e => (d, some e)

/-- The Missing Dependency message raised when `find_working_ext` finds
nothing for a required auxiliary (deck.py lines 179-182). -/
def subSourceFindMsg (value attr name : String) : String :=
  "Cannot find a suitable file for " ++ value ++ " (" ++ attr ++
    ", in " ++ name ++ ")"

/-- The Missing Dependency message raised when tracking a required
auxiliary fails with `OSError` (deck.py lines 190-192). -/
def subSourceMissingMsg (attr value name : String) : String :=
  attr ++ " deck source " ++ value ++ " is missing for " ++ name

/-- The `try: self.sub_sources[attribute] = _SourceFile(path) / except
OSError` tail of `_sub_source` (deck.py lines 186-192). -/
def subSourceTrack (fs : FS) (t : TransactionDelegate)
    (attr value : String) (required : Bool) (path : String) :
    Except PyErr TransactionDelegate :=
  match mkSourceFile fs path with
  | .ok sf => .ok (t.setSubSources (assocSet t.getSubSources attr sf))
  | .error e =>
    if e.isOSError then
      if required then
        .error (.missingDependency (subSourceMissingMsg attr value t.getSource.name))
      else .ok t
    else .error e

/-- `Deck._sub_source` (deck.py lines 168-192): resolve one auxiliary
file reference and track it, distinguishing required from optional. -/
def _sub_source (fs : FS) (t : TransactionDelegate) (config : Val)
    (attr : String) (aliases : List String) (dflt : String)
    (required : Bool) (extensions : Option (List String)) :
    Except PyErr TransactionDelegate :=
  match get_first config (attr :: aliases) .vnull with
  | .error e => .error e
  | .ok v0 =>
    match (if pyTruthy v0 then v0 else .vstr dflt) with
    | .vstr value =>
      let base := pyJoin t.getSource.dir value
      match extensions with
      | some exts =>
        match find_working_ext fs base exts with
        | none =>
          if required then
            .error (.missingDependency (subSourceFindMsg value attr t.getSource.name))
          else .ok t
        | some path => subSourceTrack fs t attr value required path
      | none => subSourceTrack fs t attr value required base
    | _ => .error .typeError

/-- `[_SourceFile(path) for path in deps]` (deck.py line 110). -/
def mkSourceFiles (fs : FS) : List String → Except PyErr (List SourceFile)
  | [] => .ok []
  | p :: rest =>
    match mkSourceFile fs p with
    | .error e => .error e
    | .ok sf =>
      match mkSourceFiles fs rest with
      | .error e => .error e
      | .ok sfs => .ok (sf :: sfs)

/-- `_interpret_source` up to and including the `default` sanitization
(deck.py lines 107-150): parse and merge the extends chain, build the
hierarchy trackers, read title/general options, resolve the three
auxiliary references, and sanitize the document-level default `copies`.
Returns the delegate plus the merged definition and the defaults dict
the cards stage consumes. -/
def interpretPre (fs : FS) (fuel : Nat) (t0 : TransactionDelegate) :
    Except PyErr (TransactionDelegate × PyDict × PyDict) := do
  let t := t0.setSubSources []
  let (deck_info, deps) ← _parse_definitions fuel fs t.getSource.path []
  let hier ← mkSourceFiles fs deps
  let t := t.setHierarchy hier
  let t := t.setTitle (pyDictGetD deck_info "title" .vnull)
  let general := pyDictGetD deck_info "general" (.vdict [])
  let outv ← get_first general ["output", "destination", "dest"]
    (.vstr (t.getSource.base ++ ".html"))
  let Val.vstr output_basename := outv | throw .typeError
  let t := t.setOutput (pyJoin t.getSource.dir output_basename)
  let icon ← get_first general ["icon_path", "icon_dir", "icon_root"] (.vstr ".")
  let t := t.setIconPath icon
  let spacing ← get_first general ["card_spacing", "spacing"] (.vstr "2pt")
  let t := t.setCardSpacing spacing
  let embed ← get_first general ["embed_styles", "embed_css"] (.vbool true)
  let t := t.setEmbedStyles embed
  let md ← get_first general
    ["markdown", "md_config", "md", "md_conf", "markdown_config"] (.vdict [])
  let t := t.setMarkdown md
  let t ← _sub_source fs t general "stylesheet" ["styles", "css", "style"]
    (t.getSource.base ++ ".css") false none
  let t ← _sub_source fs t general "header" []
    (t.getSource.base ++ ".html.header") false none
  let t ← _sub_source fs t general "template" [] t.getSource.base true
    (some [".html.jinja2", ".jinja2", ".hj2", ".vct"])
  let Val.vdict defaults0 := pyDictGetD deck_info "default" (.vdict [])
    | throw .attributeError
  let (cv, _) ← sanitize_copies (pyDictGetD defaults0 "copies" .vnull) (.vint 1)
  return (t, deck_info, setItem defaults0 "copies" cv)

/-- `[_Card(key, defaults, card) for key, card in cards.items()]`. -/
def mkCardsFromDict (defaults : PyDict) : PyDict → Except PyErr (List Card)
  | [] => .ok []
  | (k, v) :: rest => do
    let c ← mkCard k defaults v
    let cs ← mkCardsFromDict defaults rest
    return (c :: cs)

/-- `[_Card(f"card{index}", defaults, card) for index, card in
enumerate(cards, 1)]`. -/
def mkCardsFromList (defaults : PyDict) : List Val → Nat → Except PyErr (List Card)
  | [], _ => .ok []
  | v :: rest, i => do
    let c ← mkCard ("card" ++ toString i) defaults v
    let cs ← mkCardsFromList defaults rest (i + 1)
    return (c :: cs)

/-- `{card.id: card for card in self.cards}`: key keeps its first
position, later cards with the same id overwrite the value. -/
def buildIndex (cards : List Card) : List (String × Card) :=
  cards.foldl (fun acc c => assocSet acc c.id c) []

/-- The cards stage of `_interpret_source` (deck.py lines 152-166):
`deck_info['cards']` (KeyError when absent), entry construction from a
mapping or a sequence, and the id index. -/
def interpretCards (t : TransactionDelegate) (deck_info defaults : PyDict) :
    Except PyErr TransactionDelegate := do
  let cardsv ← (match pyLookup deck_info "cards" with
    | some c => Except.ok c
    | none => Except.error (PyErr.keyError "cards"))
  let cards ← (match cardsv with
    | .vdict m => mkCardsFromDict defaults m
    | .vlist l => mkCardsFromList defaults l 1
    | .vstr s => mkCardsFromList defaults (s.toList.map (fun c => Val.vstr (String.singleton c))) 1
    | _ => Except.error PyErr.typeError)
  let t := t.setCards cards
  let t := t.setCardIndex (buildIndex cards)
  return t

/-- The body of `_interpret_source` (deck.py lines 105-166), written
against the transaction delegate. -/
def interpretBody (fs : FS) (fuel : Nat) (t : TransactionDelegate) :
    Except PyErr TransactionDelegate := do
  let (t, deck_info, defaults) ← interpretPre fs fuel t
  interpretCards t deck_info defaults

/-- `Deck._interpret_source`: the body run under `transactional`.  The
pair is (deck after the call, exception raised if any); on an exception
the live object is returned untouched, exactly as the Python object is
left untouched because every write went to the overlay. -/
def Deck._interpret_source (fs : FS) (fuel : Nat) (d : Deck) :
    Deck × Option PyErr :=
  transactional (interpretBody fs fuel) d

/-- `any(dep.refresh() for dep in self.hierarchy)`: short-circuits at
the first dirty dependency (later ones are not refreshed). -/
def refreshAny (fs : FS) : List SourceFile → Except PyErr (List SourceFile × Bool)
  | [] => .ok ([], false)
  | sf :: rest =>
    match SourceFile.refresh fs sf with
    | .error e => .error e
    | .ok (sf', true) => .ok (sf' :: rest, true)
    | .ok (sf', false) =>
      match refreshAny fs rest with
      | .error e => .error e
      | .ok (rest', b) => .ok (sf' :: rest', b)

/-- `dirty = False; for dep in self.sub_sources.values(): dirty |=
dep.refresh()`: refreshes every auxiliary tracker, no short-circuit. -/
def refreshSubs (fs : FS) :
    List (String × SourceFile) → Except PyErr (List (String × SourceFile) × Bool)
  | [] => .ok ([], false)
  | (k, sf) :: rest =>
    match SourceFile.refresh fs sf with
    | .error e => .error e
    | .ok (sf', b1) =>
      match refreshSubs fs rest with
      | .error e => .error e
      | .ok (rest', b2) => .ok ((k, sf') :: rest', b1 || b2)

/-- The observable outcome of one `Deck.sync` call: the resulting deck
(or the exception), how many resolution passes ran, and how many render
calls were issued (`render` itself is the out-of-scope collaborator). -/
structure SyncOutcome where
  outcome : Except PyErr Deck
  resolutions : Nat
  renders : Nat

/-- `Deck.sync` (deck.py lines 254-263): root-tier change re-resolves
and re-renders, auxiliary-tier change re-renders only, no change does
nothing. -/
def Deck.sync (fs : FS) (fuel : Nat) (d : Deck) : SyncOutcome :=
  match SourceFile.refresh fs d.source with
  | .error e => ⟨.error e, 0, 0⟩
  | .ok (src', srcDirty) =>
    let d := { d with source := src' }
    if srcDirty then
      match Deck._interpret_source fs fuel d with
      | (d', none) => ⟨.ok d', 1, 1⟩
      | (_, some e) => ⟨.error e, 1, 0⟩
    else
      match refreshAny fs d.hierarchy with
      | .error e => ⟨.error e, 0, 0⟩
      | .ok (hier', anyDirty) =>
        let d := { d with hierarchy := hier' }
        if anyDirty then
          match Deck._interpret_source fs fuel d with
          | (d', none) => ⟨.ok d', 1, 1⟩
          | (_, some e) => ⟨.error e, 1, 0⟩
        else
          match refreshSubs fs d.sub_sources with
          | .error e => ⟨.error e, 0, 0⟩
          | .ok (subs', dirty) =>
            let d := { d with sub_sources := subs' }
            ⟨.ok d, 0, if dirty then 1 else 0⟩

/-- Following the spec's words, for comparison in claim C10 only: "Entry
fields: document-level defaults shallow-merged with entry-local fields,
entry-local wins per key". -/
def specShallowFields (defaults data : PyDict) : PyDict :=
  pyUnion defaults data

/-- Is a tracked file's on-disk mtime newer than last observed?
(The condition `mtime > self._mtime` of `_SourceFile.refresh`.) -/
def isNewer (fs : FS) (sf : SourceFile) : Bool :=
  decide (fs.mtimeOf sf.path > sf._mtime)

/-! Concrete fixtures used by counterexamples and witnesses. -/

/-- The tracked root file `/d/deck.yaml` as observed at mtime 100. -/
def srcDeck : SourceFile :=
  { path := "/d/deck.yaml", dir := "/d", name := "deck.yaml",
    base := "deck", ext := ".yaml", _mtime := 100 }

/-- A freshly constructed deck for `/d/deck.yaml` (fields still default,
the way `Deck.__init__` sees them before `_interpret_source`). -/
def d0 : Deck := { source := srcDeck }

/-- A healthy filesystem: root document with one list card and a
matching template; no stylesheet and no header. -/
def fsOk : FS where
  fileExists p := p = "/d/deck.yaml" || p = "/d/deck.html.jinja2"
  inodeOf p := if p = "/d/deck.yaml" then 1 else 2
  contentOf p :=
    if p = "/d/deck.yaml" then
      .vdict [("cards", .vlist [.vdict [("name", .vstr "A")]])]
    else .vnull
  mtimeOf _ := 100

/-- The deck after one successful resolution against `fsOk`. -/
def d1 : Deck := (Deck._interpret_source fsOk 5 d0).1

/-- `fsOk` after the root document was touched (newer mtime). -/
def fsRootNew : FS :=
  { fsOk with mtimeOf := fun p => if p = "/d/deck.yaml" then 200 else 100 }

/-- `fsOk` after only the template file was touched. -/
def fsAuxNew : FS :=
  { fsOk with mtimeOf := fun p => if p = "/d/deck.html.jinja2" then 200 else 100 }

/-- `fsOk` without the template file: the required auxiliary cannot be
resolved, so a resolution pass fails partway. -/
def fsNoTemplate : FS :=
  { fsOk with fileExists := fun p => p = "/d/deck.yaml" }

/-- A filesystem whose root document is a mapping without a `cards`
key (template present). -/
def fsNoCards : FS :=
  { fsOk with contentOf := fun p =>
      if p = "/d/deck.yaml" then .vdict [("title", .vstr "T")] else .vnull }

/-- `/d/a.yaml` extends `p.yaml`, which does not exist. -/
def fsMissingParent : FS where
  fileExists p := p = "/d/a.yaml"
  inodeOf _ := 1
  contentOf p :=
    if p = "/d/a.yaml" then
      .vdict [("extends", .vstr "p.yaml"), ("cards", .vlist [])]
    else .vnull
  mtimeOf _ := 100

/-- `/d/a.yaml` extends `/d/b.yaml`, which extends `c.yaml`, which does
not exist. -/
def fsMissingGrand : FS where
  fileExists p := p = "/d/a.yaml" || p = "/d/b.yaml"
  inodeOf p := if p = "/d/a.yaml" then 1 else 2
  contentOf p :=
    if p = "/d/a.yaml" then .vdict [("extends", .vstr "b.yaml")]
    else if p = "/d/b.yaml" then .vdict [("extends", .vstr "c.yaml")]
    else .vnull
  mtimeOf _ := 100

/-- `/d/a.yaml` extends itself. -/
def fsSelfLoop : FS where
  fileExists p := p = "/d/a.yaml"
  inodeOf _ := 1
  contentOf p :=
    if p = "/d/a.yaml" then .vdict [("extends", .vstr "a.yaml")] else .vnull
  mtimeOf _ := 100

/-- `/d/a.yaml` extends `/d/b.yaml` and `/d/b.yaml` extends `/d/a.yaml`. -/
def fsCycleAB : FS where
  fileExists p := p = "/d/a.yaml" || p = "/d/b.yaml"
  inodeOf p := if p = "/d/a.yaml" then 1 else if p = "/d/b.yaml" then 2 else 0
  contentOf p :=
    if p = "/d/a.yaml" then .vdict [("extends", .vstr "b.yaml"), ("cards", .vlist [])]
    else if p = "/d/b.yaml" then .vdict [("extends", .vstr "a.yaml")]
    else .vnull
  mtimeOf _ := 100

/-- A three-document chain `/d/a.yaml` → `/d/b.yaml` → `/d/c.yaml`. -/
def fsChain3 : FS where
  fileExists p := p = "/d/a.yaml" || p = "/d/b.yaml" || p = "/d/c.yaml"
  inodeOf p := if p = "/d/a.yaml" then 1 else if p = "/d/b.yaml" then 2 else 3
  contentOf p :=
    if p = "/d/a.yaml" then .vdict [("extends", .vstr "b.yaml"), ("t", .vstr "A")]
    else if p = "/d/b.yaml" then
      .vdict [("extends", .vstr "c.yaml"), ("t", .vstr "B"), ("u", .vint 1)]
    else if p = "/d/c.yaml" then .vdict [("t", .vstr "C"), ("w", .vint 9)]
    else .vnull
  mtimeOf _ := 100

/-- The tracked root file `/d/a.yaml` as observed at mtime 100. -/
def srcA : SourceFile :=
  { path := "/d/a.yaml", dir := "/d", name := "a.yaml",
    base := "a", ext := ".yaml", _mtime := 100 }

/-- A working two-document chain with a template: `/d/a.yaml` extends
`/d/b.yaml`, so the resolved deck has a non-empty hierarchy. -/
def fsChainOk : FS where
  fileExists p := p = "/d/a.yaml" || p = "/d/b.yaml" || p = "/d/a.html.jinja2"
  inodeOf p := if p = "/d/a.yaml" then 1 else if p = "/d/b.yaml" then 2 else 3
  contentOf p :=
    if p = "/d/a.yaml" then .vdict [("extends", .vstr "b.yaml"), ("cards", .vlist [])]
    else if p = "/d/b.yaml" then .vdict [("title", .vstr "B"), ("cards", .vlist [])]
    else .vnull
  mtimeOf _ := 100

/-- The ancestor `/d/b.yaml` as tracked at mtime 100. -/
def sfB : SourceFile :=
  { path := "/d/b.yaml", dir := "/d", name := "b.yaml",
    base := "b", ext := ".yaml", _mtime := 100 }

/-- The chain deck in its state after one successful resolution of
`/d/a.yaml` against `fsChainOk`: root tracked plus the ancestor
`/d/b.yaml` in the hierarchy. -/
def dChain : Deck := { source := srcA, hierarchy := [sfB] }

/-- `fsChainOk` after only the ancestor `/d/b.yaml` was touched. -/
def fsHierNew : FS :=
  { fsChainOk with mtimeOf := fun p => if p = "/d/b.yaml" then 200 else 100 }

/-! Association-list lemmas. -/

theorem pyLookup_append (xs ys : PyDict) (k : String) :
    pyLookup (xs ++ ys) k =
      match pyLookup xs k with
      | some v => some v
      | none => pyLookup ys k := by
  induction xs with
  | nil => simp [pyLookup]
  | cons p rest ih =>
    obtain ⟨k1, v⟩ := p
    by_cases h : k1 = k <;> simp [pyLookup, h, ih]

theorem pyLookup_filterKey (d : PyDict) (q : String → Bool) (k : String) :
    pyLookup (d.filter (fun p => q p.1)) k =
      if q k then pyLookup d k else none := by
  induction d with
  | nil => simp [pyLookup]
  | cons p rest ih =>
    obtain ⟨k1, v⟩ := p
    by_cases h : k1 = k
    · subst h
      by_cases hq : q k1 <;> simp [pyLookup, hq, ih]
    · by_cases hq : q k1 <;> simp [List.filter, hq, pyLookup, h, ih]

theorem containsKey_eq_isSome (d : PyDict) (k : String) :
    containsKey d k = (pyLookup d k).isSome := by
  induction d with
  | nil => simp [containsKey, pyLookup]
  | cons p rest ih =>
    obtain ⟨k1, v⟩ := p
    by_cases h : k1 = k <;>
      simp [containsKey, pyLookup, h, beq_iff_eq]
    have hb : (k1 == k) = false := beq_eq_false_iff_ne.mpr h
    simpa [containsKey, hb] using ih

theorem pyLookup_mergeCommon (base overrides : PyDict)
    (ignore_keys : List String) (k : String) :
    pyLookup (mergeCommon base overrides ignore_keys) k =
      if topIgnored ignore_keys k then none
      else
        match pyLookup base k with
        | none => none
        | some bv =>
          match pyLookup overrides k with
          | none => some bv
          | some ov => some (merge2 bv ov ignore_keys) := by
  induction base with
  | nil => simp [mergeCommon, pyLookup]
  | cons p rest ih =>
    obtain ⟨k1, bv⟩ := p
    by_cases h : k1 = k
    · subst h
      by_cases hig : topIgnored ignore_keys k1
      · simp [mergeCommon, hig, ih]
      · cases ho : pyLookup overrides k1 <;>
          simp [mergeCommon, hig, ho, pyLookup, ih]
    · by_cases hig : topIgnored ignore_keys k1
      · simp [mergeCommon, hig, ih, pyLookup, h]
      · cases ho : pyLookup overrides k1 <;>
          simp [mergeCommon, hig, ho, pyLookup, h, ih]

/-- Per-key characterization of `dict_merge`: top-ignored keys are gone;
otherwise only-in-one keys pass through and both-present keys get
`merge2`. -/
theorem pyLookup_dict_merge (base overrides : PyDict)
    (ignore_keys : List String) (k : String) :
    pyLookup (dict_merge base overrides ignore_keys) k =
      if topIgnored ignore_keys k then none
      else
        match pyLookup base k, pyLookup overrides k with
        | none, none => none
        | some bv, none => some bv
        | none, some ov => some ov
        | some bv, some ov => some (merge2 bv ov ignore_keys) := by
  rw [dict_merge, pyLookup_append, pyLookup_mergeCommon]
  have hfilter := pyLookup_filterKey overrides
    (fun k1 => !containsKey base k1 && !topIgnored ignore_keys k1) k
  simp only at hfilter
  rw [hfilter, containsKey_eq_isSome]
  by_cases hig : topIgnored ignore_keys k
  · simp [hig]
  · cases hb : pyLookup base k <;> cases ho : pyLookup overrides k <;>
      simp [hig, hb, ho]

/-- `merge2` by value shapes: dict-with-dict recurses, list-with-list
concatenates, everything else resolves to the override. -/
theorem merge2_eq (b o : Val) (ignore_keys : List String) :
    merge2 b o ignore_keys =
      match b, o with
      | .vdict bd, .vdict od => .vdict (dict_merge bd od (nestedIgnores ignore_keys))
      | .vlist bl, .vlist ol => .vlist (bl ++ ol)
      | _, _ => o := by
  cases b <;> cases o <;> simp [merge2, pyIsinstance, pyTypeOf]

/-- C5: with empty `ignore_keys`, `merge(base, overrides)` keeps
only-in-one keys unchanged, recurses key-by-key when both values are
mappings, concatenates base-then-overrides when both are lists,
lets `overrides` win outright otherwise, and on the concrete example
`merge({a:1,b:[1,2]}, {b:[3],c:2}, {})` yields `{a:1,b:[1,2,3],c:2}`. -/
theorem C5_dict_merge_empty_ignore :
    (∀ (base overrides : PyDict) (k : String),
      pyLookup (dict_merge base overrides []) k =
        match pyLookup base k, pyLookup overrides k with
        | none, none => none
        | some bv, none => some bv
        | none, some ov => some ov
        | some (.vdict bd), some (.vdict od) => some (.vdict (dict_merge bd od []))
        | some (.vlist bl), some (.vlist ol) => some (.vlist (bl ++ ol))
        | some _, some ov => some ov) ∧
    dict_merge [("a", .vint 1), ("b", .vlist [.vint 1, .vint 2])]
        [("b", .vlist [.vint 3]), ("c", .vint 2)] [] =
      [("a", .vint 1), ("b", .vlist [.vint 1, .vint 2, .vint 3]), ("c", .vint 2)] := by
  constructor
  · intro base overrides k
    rw [pyLookup_dict_merge]
    simp only [topIgnored, List.any_nil, Bool.false_eq_true, if_false]
    cases hb : pyLookup base k with
    | none => cases ho : pyLookup overrides k <;> simp
    | some bv =>
      cases ho : pyLookup overrides k with
      | none => simp
      | some ov =>
        have hni : nestedIgnores [] = [] := rfl
        cases bv <;> cases ov <;> simp [merge2_eq, hni]
  · simp +decide [dict_merge, mergeCommon, merge2, containsKey, topIgnored,
      nestedIgnores, firstSeg, hasDot, restSeg, pyLookup, pyIsinstance, pyTypeOf]

/-- C4 (evaluating the code at the failing inputs): with the dotted
ignore key `"markdown.extensions"`, `dict_merge` deletes the whole
top-level `markdown` key from the result (the first segment of every
ignore key is subtracted from the iterated key set), and the stripped
suffix `extensions` is applied inside every doubly-present sub-mapping,
here the unrelated `other`.  The claim's remaining part — a bare ignore
key `x` is dropped from the top level of the result — does hold. -/
theorem C4_dotted_ignore_behaviour :
    dict_merge
        [("markdown", .vdict [("extensions", .vlist [.vstr "a"]), ("tabs", .vint 4)])]
        [("markdown", .vdict [("extensions", .vlist [.vstr "b"])])]
        ["markdown.extensions"] = [] ∧
    dict_merge
        [("other", .vdict [("extensions", .vlist [.vstr "a"]), ("keep", .vint 1)])]
        [("other", .vdict [("extensions", .vlist [.vstr "b"])])]
        ["markdown.extensions"] = [("other", .vdict [("keep", .vint 1)])] ∧
    (∀ (base overrides : PyDict),
      pyLookup (dict_merge base overrides ["x"]) "x" = none) := by
  refine ⟨?_, ?_, ?_⟩
  · simp +decide [dict_merge, mergeCommon, merge2, containsKey, topIgnored,
      nestedIgnores, firstSeg, hasDot, restSeg, pyLookup, pyIsinstance, pyTypeOf]
  · simp +decide [dict_merge, mergeCommon, merge2, containsKey, topIgnored,
      nestedIgnores, firstSeg, hasDot, restSeg, pyLookup, pyIsinstance, pyTypeOf]
  · intro base overrides
    rw [pyLookup_dict_merge]
    simp +decide [topIgnored, firstSeg]

/-- The child-paths loop succeeds when the parent collides with no child. -/
theorem checkChildPaths_ok (fs : FS) (path pp : String)
    (children : List String)
    (hpp : fs.fileExists pp = true)
    (hkids : ∀ c ∈ children, fs.fileExists c = true ∧ fs.inodeOf c ≠ fs.inodeOf pp) :
    checkChildPaths fs path pp children = .ok () := by
  induction children with
  | nil => rfl
  | cons c rest ih =>
    obtain ⟨hc, hne⟩ := hkids c (by simp)
    have hbeq : (fs.inodeOf pp == fs.inodeOf c) = false :=
      beq_eq_false_iff_ne.mpr (fun h => hne h.symm)
    simp [checkChildPaths, FS.samefile, hpp, hc, hbeq]
    exact ih (fun x hx => hkids x (by simp [hx]))

/-- The child-paths loop raises Cyclic Dependency when some child is the
same file as the parent (all children exist, having been opened). -/
theorem checkChildPaths_cyclic (fs : FS) (path pp : String)
    (children : List String)
    (hpp : fs.fileExists pp = true)
    (hkids : ∀ c ∈ children, fs.fileExists c = true)
    (hmem : ∃ c ∈ children, fs.inodeOf c = fs.inodeOf pp) :
    checkChildPaths fs path pp children =
      .error (.cyclicDependency (cyclicIndirectMsg path pp)) := by
  induction children with
  | nil => simp at hmem
  | cons c rest ih =>
    have hc : fs.fileExists c = true := hkids c (by simp)
    by_cases hsame : fs.inodeOf pp = fs.inodeOf c
    · have hbeq : (fs.inodeOf pp == fs.inodeOf c) = true := beq_iff_eq.mpr hsame
      simp [checkChildPaths, FS.samefile, hpp, hc, hbeq]
    · have hbeq : (fs.inodeOf pp == fs.inodeOf c) = false :=
        beq_eq_false_iff_ne.mpr hsame
      simp [checkChildPaths, FS.samefile, hpp, hc, hbeq]
      apply ih (fun x hx => hkids x (by simp [hx]))
      obtain ⟨x, hx, hxe⟩ := hmem
      rcases List.mem_cons.mp hx with hx1 | hx1
      · exact absurd (hx1 ▸ hxe).symm hsame
      · exact ⟨x, hx1, hxe⟩

/-- C3: a document whose `extends` reference resolves to the same file
as the document itself raises Cyclic Dependency (first conjunct), and a
document whose resolved ancestor is the same file as any path already on
the visited child-paths list of the resolution raises Cyclic Dependency
(second conjunct, covering indirect cycles such as A→B→A), instead of
looping or merging. -/
theorem C3_cyclic_dependency :
    (∀ (fs : FS) (fuel : Nat) (path : String) (children : List String)
        (defs : PyDict) (e : String),
      fs.fileExists path = true →
      fs.contentOf path = .vdict defs →
      pyLookup defs "extends" = some (.vstr e) →
      fs.fileExists (pyJoin (dirname path) e) = true →
      fs.inodeOf (pyJoin (dirname path) e) = fs.inodeOf path →
      _parse_definitions (fuel + 1) fs path children =
        .error (.cyclicDependency (cyclicSelfMsg path (pyJoin (dirname path) e)))) ∧
    (∀ (fs : FS) (fuel : Nat) (path : String) (children : List String)
        (defs : PyDict) (e : String),
      fs.fileExists path = true →
      fs.contentOf path = .vdict defs →
      pyLookup defs "extends" = some (.vstr e) →
      fs.fileExists (pyJoin (dirname path) e) = true →
      fs.inodeOf (pyJoin (dirname path) e) ≠ fs.inodeOf path →
      (∀ c ∈ children, fs.fileExists c = true) →
      (∃ c ∈ children, fs.inodeOf c = fs.inodeOf (pyJoin (dirname path) e)) →
      _parse_definitions (fuel + 1) fs path children =
        .error (.cyclicDependency (cyclicIndirectMsg path (pyJoin (dirname path) e)))) := by
  constructor
  · intro fs fuel path children defs e hex hdict hext hpe hsame
    have hbeq : (fs.inodeOf (pyJoin (dirname path) e) == fs.inodeOf path) = true :=
      beq_iff_eq.mpr hsame
    simp [_parse_definitions, FS.readYaml, hex, hdict, hext, FS.samefile, hpe, hbeq]
  · intro fs fuel path children defs e hex hdict hext hpe hneq hkids hmem
    have hbeq : (fs.inodeOf (pyJoin (dirname path) e) == fs.inodeOf path) = false :=
      beq_eq_false_iff_ne.mpr hneq
    have hloop := checkChildPaths_cyclic fs path (pyJoin (dirname path) e)
      children hpe hkids hmem
    simp [_parse_definitions, FS.readYaml, hex, hdict, hext, FS.samefile, hpe, hbeq, hloop]

/-- Witness for C3: the self-extending `/d/a.yaml` raises Cyclic
Dependency; resolving `/d/b.yaml` with `/d/a.yaml` on the visited list
(the inner state of resolving A→B→A) raises the indirect Cyclic
Dependency; and the full A→B→A resolution started at `/d/a.yaml`
evaluates to that very error. -/
theorem C3_cyclic_dependency_witness :
    _parse_definitions 5 fsSelfLoop "/d/a.yaml" [] =
      .error (.cyclicDependency (cyclicSelfMsg "/d/a.yaml" "/d/a.yaml")) ∧
    _parse_definitions 5 fsCycleAB "/d/b.yaml" ["/d/a.yaml"] =
      .error (.cyclicDependency (cyclicIndirectMsg "/d/b.yaml" "/d/a.yaml")) ∧
    _parse_definitions 5 fsCycleAB "/d/a.yaml" [] =
      .error (.cyclicDependency (cyclicIndirectMsg "/d/b.yaml" "/d/a.yaml")) := by
  refine ⟨?_, ?_, rfl⟩
  · exact C3_cyclic_dependency.1 fsSelfLoop 4 "/d/a.yaml" [] _ "a.yaml"
      rfl rfl rfl rfl rfl
  · exact C3_cyclic_dependency.2 fsCycleAB 4 "/d/b.yaml" ["/d/a.yaml"] _ "a.yaml"
      rfl rfl rfl rfl (by decide) (by decide)
      ⟨"/d/a.yaml", by simp, rfl⟩

/-- C2 (evaluating the code at the failing and passing inputs): a
root document whose `extends` target does not exist fails with a raw
`FileNotFoundError` from `os.path.samefile` — not with Missing
Dependency — because the samefile check at deck.py line 76 runs before
the `try/except FileNotFoundError` at lines 86-89; a missing
grandparent is converted, but the Missing Dependency names the middle
document `/d/b.yaml` rather than the actually missing `c.yaml`; an
unresolvable required template does fail with Missing Dependency; and a
missing stylesheet/header is silently skipped (the pass succeeds). -/
theorem C2_missing_dependency_behaviour :
    _parse_definitions 5 fsMissingParent "/d/a.yaml" [] =
      .error (.fileNotFound "/d/p.yaml") ∧
    _parse_definitions 5 fsMissingGrand "/d/a.yaml" [] =
      .error (.missingDependency "/d/b.yaml") ∧
    (Deck._interpret_source fsNoTemplate 5 d0).2 =
      some (.missingDependency (subSourceFindMsg "deck" "template" "deck.yaml")) ∧
    (Deck._interpret_source fsOk 5 d0).2 = none :=
  ⟨rfl, rfl, rfl, rfl⟩

/-- One step of `_parse_definitions` for a document with no `extends`
key: the raw definitions and an empty ancestor list. -/
theorem parse_noext (fs : FS) (fuel : Nat) (path : String)
    (children : List String) (defs : PyDict)
    (hex : fs.fileExists path = true)
    (hdict : fs.contentOf path = .vdict defs)
    (hnoext : pyLookup defs "extends" = none) :
    _parse_definitions (fuel + 1) fs path children = .ok (defs, []) := by
  simp [_parse_definitions, FS.readYaml, hex, hdict, hnoext]

/-- One step of `_parse_definitions` for a document with a well-formed,
non-cyclic `extends` reference: recurse into the parent, convert a
`FileNotFoundError` from the recursion to Missing Dependency, and merge
parent-under-child ignoring `extends`. -/
theorem parse_step (fs : FS) (fuel : Nat) (path : String)
    (children : List String) (defs : PyDict) (e : String)
    (hex : fs.fileExists path = true)
    (hdict : fs.contentOf path = .vdict defs)
    (hext : pyLookup defs "extends" = some (.vstr e))
    (hpe : fs.fileExists (pyJoin (dirname path) e) = true)
    (hneq : fs.inodeOf (pyJoin (dirname path) e) ≠ fs.inodeOf path)
    (hkids : checkChildPaths fs path (pyJoin (dirname path) e) children = .ok ()) :
    _parse_definitions (fuel + 1) fs path children =
      match _parse_definitions fuel fs (pyJoin (dirname path) e) (path :: children) with
      | .error err =>
        if err.isFileNotFound
        then .error (.missingDependency (pyJoin (dirname path) e))
        else .error err
      | .ok (pd, deps) =>
        .ok (dict_merge pd defs ["extends"], pyJoin (dirname path) e :: deps) := by
  have hbeq : (fs.inodeOf (pyJoin (dirname path) e) == fs.inodeOf path) = false :=
    beq_eq_false_iff_ne.mpr hneq
  simp [_parse_definitions, FS.readYaml, hex, hdict, hext, FS.samefile, hpe, hbeq, hkids]

/-- C8: a document with no `extends` key resolves to the raw document
with an empty ancestor list (first conjunct); a chain A extends B
extends C resolves to `merge(merge(C, B), A)` — ancestor-to-descendant,
each merge ignoring `extends` — with ancestor list `[B, C]`
nearest-first (second conjunct). -/
theorem C8_extension_chain_resolution :
    (∀ (fs : FS) (fuel : Nat) (path : String) (children : List String)
        (defs : PyDict),
      fs.fileExists path = true →
      fs.contentOf path = .vdict defs →
      pyLookup defs "extends" = none →
      _parse_definitions (fuel + 1) fs path children = .ok (defs, [])) ∧
    (∀ (fs : FS) (fuel : Nat) (pa : String) (Da Db Dc : PyDict) (ea eb : String),
      fs.fileExists pa = true →
      fs.contentOf pa = .vdict Da →
      pyLookup Da "extends" = some (.vstr ea) →
      fs.fileExists (pyJoin (dirname pa) ea) = true →
      fs.contentOf (pyJoin (dirname pa) ea) = .vdict Db →
      pyLookup Db "extends" = some (.vstr eb) →
      fs.fileExists (pyJoin (dirname (pyJoin (dirname pa) ea)) eb) = true →
      fs.contentOf (pyJoin (dirname (pyJoin (dirname pa) ea)) eb) = .vdict Dc →
      pyLookup Dc "extends" = none →
      fs.inodeOf (pyJoin (dirname pa) ea) ≠ fs.inodeOf pa →
      fs.inodeOf (pyJoin (dirname (pyJoin (dirname pa) ea)) eb) ≠
        fs.inodeOf (pyJoin (dirname pa) ea) →
      fs.inodeOf (pyJoin (dirname (pyJoin (dirname pa) ea)) eb) ≠ fs.inodeOf pa →
      _parse_definitions (fuel + 3) fs pa [] =
        .ok (dict_merge (dict_merge Dc Db ["extends"]) Da ["extends"],
             [pyJoin (dirname pa) ea, pyJoin (dirname (pyJoin (dirname pa) ea)) eb])) := by
  constructor
  · exact parse_noext
  · intro fs fuel pa Da Db Dc ea eb hA hDa hea hB hDb heb hC hDc hnc iBA iCB iCA
    have step1 := parse_step fs (fuel + 2) pa [] Da ea hA hDa hea hB iBA rfl
    have kidsB : checkChildPaths fs (pyJoin (dirname pa) ea)
        (pyJoin (dirname (pyJoin (dirname pa) ea)) eb) [pa] = .ok () := by
      apply checkChildPaths_ok _ _ _ _ hC
      intro c hc
      rcases List.mem_cons.mp hc with h1 | h1
      · subst h1; exact ⟨hA, fun h => iCA h.symm⟩
      · simp at h1
    have step2 := parse_step fs (fuel + 1) (pyJoin (dirname pa) ea) [pa] Db eb
      hB hDb heb hC iCB kidsB
    have step3 := parse_noext fs fuel
      (pyJoin (dirname (pyJoin (dirname pa) ea)) eb)
      [pyJoin (dirname pa) ea, pa] Dc hC hDc hnc
    rw [show fuel + 3 = (fuel + 2) + 1 from rfl, step1, step2, step3]

/-- Witness for C8: the concrete chain `/d/a.yaml` → `/d/b.yaml` →
`/d/c.yaml` resolves to the double merge with ancestor list
`[/d/b.yaml, /d/c.yaml]`, that merge evaluates to
`{t: "A", w: 9, u: 1}` (descendants win per key), and the chainless
`/d/c.yaml` resolves to its raw document with no ancestors. -/
theorem C8_extension_chain_resolution_witness :
    _parse_definitions 5 fsChain3 "/d/a.yaml" [] =
      .ok (dict_merge
            (dict_merge [("t", .vstr "C"), ("w", .vint 9)]
              [("extends", .vstr "c.yaml"), ("t", .vstr "B"), ("u", .vint 1)]
              ["extends"])
            [("extends", .vstr "b.yaml"), ("t", .vstr "A")] ["extends"],
           ["/d/b.yaml", "/d/c.yaml"]) ∧
    dict_merge
        (dict_merge [("t", .vstr "C"), ("w", .vint 9)]
          [("extends", .vstr "c.yaml"), ("t", .vstr "B"), ("u", .vint 1)]
          ["extends"])
        [("extends", .vstr "b.yaml"), ("t", .vstr "A")] ["extends"] =
      [("t", .vstr "A"), ("w", .vint 9), ("u", .vint 1)] ∧
    _parse_definitions 5 fsChain3 "/d/c.yaml" [] =
      .ok ([("t", .vstr "C"), ("w", .vint 9)], []) := by
  refine ⟨?_, ?_, ?_⟩
  · exact C8_extension_chain_resolution.2 fsChain3 2 "/d/a.yaml" _ _ _ "b.yaml" "c.yaml"
      rfl rfl rfl rfl rfl rfl rfl rfl rfl (by decide) (by decide) (by decide)
  · simp +decide [dict_merge, mergeCommon, merge2, containsKey, topIgnored,
      nestedIgnores, firstSeg, hasDot, restSeg, pyLookup, pyIsinstance, pyTypeOf]
  · exact C8_extension_chain_resolution.1 fsChain3 4 "/d/c.yaml" [] _ rfl rfl rfl

/-- Counterexample for C6: a mapping document without a `cards` key
(template present, so the pass reaches the cards stage) fails with a
plain `KeyError`, which is not the typed Invalid Definition error, and
only after the merge and auxiliary-resolution work already ran. -/
theorem C6_invalid_definition_counterexample :
    (Deck._interpret_source fsNoCards 5 d0).2 = some (.keyError "cards") ∧
    (∀ msg, PyErr.keyError "cards" ≠ PyErr.deckError msg) := by
  refine ⟨rfl, ?_⟩
  intro msg h
  cases h

/-- C6 as amended: a document that is not a mapping at top level fails
with the typed Invalid Deck Definition error inside `_parse_definitions`
(before any merge); an absent `cards` key instead raises an untyped
`KeyError` from `deck_info['cards']`, after the extends merge, the
auxiliary resolution and the defaults sanitization all completed. -/
theorem C6_invalid_definition_amended :
    (∀ (fs : FS) (fuel : Nat) (path : String) (children : List String),
      fs.fileExists path = true →
      pyIsinstance (fs.contentOf path) .tdict = false →
      _parse_definitions (fuel + 1) fs path children =
        .error (.deckError (invalidDefMsg path))) ∧
    (∀ (fs : FS) (fuel : Nat) (d : Deck),
      (match interpretPre fs fuel { _delegate_ := d, _overrides_ := {} } with
        | .ok (_, info, _) => pyLookup info "cards" = none
        | .error _ => False) →
      Deck._interpret_source fs fuel d = (d, some (.keyError "cards"))) := by
  constructor
  · intro fs fuel path children hex hnd
    cases hv : fs.contentOf path <;>
      simp [_parse_definitions, FS.readYaml, hex, hv] <;>
      simp [hv, pyIsinstance, pyTypeOf] at hnd
  · intro fs fuel d h
    cases hpre : interpretPre fs fuel { _delegate_ := d, _overrides_ := {} } with
    | error e => rw [hpre] at h; exact h.elim
    | ok r =>
      obtain ⟨t', info, defaults⟩ := r
      rw [hpre] at h
      simp only at h
      simp [Deck._interpret_source, transactional, interpretBody, hpre,
        interpretCards, h, Bind.bind, Except.bind, Functor.map, Except.map]

/-- Witness for C6: the no-`cards` filesystem satisfies the amended
theorem's hypothesis and the pass indeed fails with `KeyError` leaving
the deck untouched. -/
theorem C6_invalid_definition_witness :
    Deck._interpret_source fsNoCards 5 d0 = (d0, some (.keyError "cards")) :=
  C6_invalid_definition_amended.2 fsNoCards 5 d0 rfl

/-- Counterexample for C9: a `copies` value that is a list (or any other
non-convertible type) raises a `TypeError` out of `sanitize_copies`
(only `ValueError` is caught), both directly and through an entry. -/
theorem C9_sanitize_copies_counterexample :
    sanitize_copies (.vlist []) (.vint 1) = .error .typeError ∧
    mkCard "c1" [("copies", .vint 1)] (.vdict [("copies", .vlist [])]) =
      .error .typeError :=
  ⟨rfl, rfl⟩

/-- C9 as amended: for null, boolean, integer or string `copies` values
(with an integer default), sanitization never raises; a string that
fails integer conversion falls back to the default with the warning flag
set; a successful conversion is clamped below at 0; but list- or
mapping-valued `copies` raise an uncaught `TypeError`. -/
theorem C9_sanitize_copies_amended :
    (∀ (dflt : Int) (v : Val),
      (pyTypeOf v = .tnone ∨ pyTypeOf v = .tbool ∨ pyTypeOf v = .tint ∨
        pyTypeOf v = .tstr) →
      ∃ r w, sanitize_copies v (.vint dflt) = .ok (r, w)) ∧
    (∀ (dflt : Int) (s : String), pyStrToInt s = none →
      sanitize_copies (.vstr s) (.vint dflt) = .ok (.vint dflt, true)) ∧
    (∀ (dflt : Int) (v : Val) (m : Int), pyInt v = .ok m →
      sanitize_copies v (.vint dflt) = .ok (.vint (max m 0), false)) := by
  refine ⟨?_, ?_, ?_⟩
  · intro dflt v hv
    cases v with
    | vnull => exact ⟨_, _, rfl⟩
    | vbool b => cases b <;> exact ⟨_, _, rfl⟩
    | vint n => exact ⟨_, _, rfl⟩
    | vstr s =>
      cases hs : pyStrToInt s with
      | none =>
        exact ⟨.vint dflt, true, by simp [sanitize_copies, pyInt, Val.isNull, hs]⟩
      | some n =>
        exact ⟨.vint (max n 0), false,
          by simp [sanitize_copies, pyInt, Val.isNull, hs]⟩
    | vlist l => simp [pyTypeOf] at hv
    | vdict entries => simp [pyTypeOf] at hv
  · intro dflt s hs
    simp [sanitize_copies, pyInt, Val.isNull, hs]
  · intro dflt v m hm
    cases v with
    | vnull => simp [pyInt] at hm
    | vbool b => cases b <;> simp_all [sanitize_copies, pyInt, Val.isNull]
    | vint n => simp_all [sanitize_copies, pyInt, Val.isNull]
    | vstr s =>
      cases hs : pyStrToInt s <;> simp_all [sanitize_copies, pyInt, Val.isNull]
    | vlist l => simp [pyInt] at hm
    | vdict entries => simp [pyInt] at hm

/-- Witness for C9: `copies: "abc"` falls back to the default 1 with a
warning, and `copies: -5` is clamped to 0 without raising. -/
theorem C9_sanitize_copies_witness :
    sanitize_copies (.vstr "abc") (.vint 1) = .ok (.vint 1, true) ∧
    sanitize_copies (.vint (-5)) (.vint 1) = .ok (.vint 0, false) := by
  constructor
  · exact C9_sanitize_copies_amended.2.1 1 "abc" rfl
  · have h := C9_sanitize_copies_amended.2.2 1 (.vint (-5)) (-5) rfl
    rwa [show (max (-5 : Int) 0) = 0 by decide] at h

/-- Counterexample for C10: with document default `copies: 2` and entry
`copies: 5`, the entry-local value lands only in the `copies` attribute;
the template-visible field mapping keeps the default 2, whereas the
claimed entry-wins shallow merge would give 5. -/
theorem C10_entry_fields_counterexample :
    mkCard "c1" [("copies", .vint 2)] (.vdict [("copies", .vint 5)]) =
      .ok { id := "c1", copies := .vint 5, fields := [("copies", .vint 2)] } ∧
    pyLookup (specShallowFields [("copies", .vint 2)] [("copies", .vint 5)])
      "copies" = some (.vint 5) ∧
    (some (Val.vint 2) ≠ some (Val.vint 5)) := by
  refine ⟨rfl, rfl, ?_⟩
  intro h
  injection h with h1
  injection h1 with h2
  exact absurd h2 (by decide)

/-- Lookup over the positional part of `{**d1, **d2}`. -/
theorem pyLookup_mapOverride (d1 d2 : PyDict) (k : String) :
    pyLookup (d1.map (fun p => (p.1, (pyLookup d2 p.1).getD p.2))) k =
      (pyLookup d1 k).map (fun v => (pyLookup d2 k).getD v) := by
  induction d1 with
  | nil => simp [pyLookup]
  | cons p rest ih =>
    obtain ⟨k1, v1⟩ := p
    by_cases hk : k1 = k
    · subst hk; simp [pyLookup]
    · simp [pyLookup, hk, ih]

/-- First-occurrence lookup over the `{**d1, **d2}` union: keys present
in `d2` take `d2`'s value, the rest fall back to `d1`. -/
theorem pyLookup_pyUnion (d1 d2 : PyDict) (k : String) :
    pyLookup (pyUnion d1 d2) k =
      match pyLookup d2 k with
      | some v => some v
      | none => pyLookup d1 k := by
  unfold pyUnion
  rw [pyLookup_append, pyLookup_mapOverride]
  have hfilter := pyLookup_filterKey d2 (fun k1 => !containsKey d1 k1) k
  simp only at hfilter
  rw [hfilter, containsKey_eq_isSome]
  cases h1 : pyLookup d1 k <;> cases h2 : pyLookup d2 k <;> simp [h1, h2]

/-- After `data.pop('copies', ...)` the popped key is gone. -/
theorem pyLookup_removeKey_self (d : PyDict) (k : String) :
    pyLookup (removeKey d k) k = none := by
  induction d with
  | nil => simp [removeKey, pyLookup]
  | cons p rest ih =>
    obtain ⟨k1, v1⟩ := p
    by_cases hk : k1 = k <;> simp [removeKey, hk, pyLookup, ih]

/-- `pop` leaves every other key's binding alone. -/
theorem pyLookup_removeKey_other (d : PyDict) (k k' : String) (h : k' ≠ k) :
    pyLookup (removeKey d k) k' = pyLookup d k' := by
  induction d with
  | nil => simp [removeKey]
  | cons p rest ih =>
    obtain ⟨k1, v1⟩ := p
    by_cases hk : k1 = k
    · subst hk
      have h1 : k1 ≠ k' := fun he => h he.symm
      simp [removeKey, pyLookup, h1, ih]
    · by_cases hk' : k1 = k' <;> simp [removeKey, pyLookup, hk, hk', h, ih]

/-- C10 as amended: the template-visible field mapping is the defaults
shallow-merged with the entry-local fields *minus `copies`*: for every
key other than `copies` the entry-local value wins exactly as the
entry-wins shallow merge prescribes, but the mapping's `copies` binding
is the document-level default's, because the entry-local `copies` is
popped into the multiplicity attribute before the merge. -/
theorem C10_entry_fields_amended :
    ∀ (id : String) (defaults data : PyDict) (c : Card),
      mkCard id defaults (.vdict data) = .ok c →
      (∀ k, k ≠ "copies" →
        pyLookup c.fields k = pyLookup (specShallowFields defaults data) k) ∧
      pyLookup c.fields "copies" = pyLookup defaults "copies" := by
  intro id defaults data c hc
  have hfields : c.fields = pyUnion defaults (removeKey data "copies") := by
    cases hs : sanitize_copies ((pyLookup data "copies").getD .vnull)
        (pyDictGetD defaults "copies" .vnull) with
    | error e => simp [mkCard, hs] at hc
    | ok p =>
      simp [mkCard, hs] at hc
      rw [← hc]
  constructor
  · intro k hk
    rw [hfields, specShallowFields, pyLookup_pyUnion, pyLookup_pyUnion,
      pyLookup_removeKey_other data "copies" k hk]
  · rw [hfields, pyLookup_pyUnion, pyLookup_removeKey_self]

/-- Witness for C10: with defaults `{copies: 2, a: 7}` and entry data
`{copies: 5, b: 8}`, the non-`copies` keys follow the entry-wins shallow
merge while the mapping's `copies` stays the default's. -/
theorem C10_entry_fields_witness :
    pyLookup ([("copies", Val.vint 2), ("a", Val.vint 7), ("b", Val.vint 8)] : PyDict)
        "b" =
      pyLookup (specShallowFields [("copies", Val.vint 2), ("a", Val.vint 7)]
        [("copies", Val.vint 5), ("b", Val.vint 8)]) "b" ∧
    pyLookup ([("copies", Val.vint 2), ("a", Val.vint 7), ("b", Val.vint 8)] : PyDict)
        "copies" =
      pyLookup [("copies", Val.vint 2), ("a", Val.vint 7)] "copies" := by
  have h := C10_entry_fields_amended "c1"
    [("copies", Val.vint 2), ("a", Val.vint 7)]
    [("copies", Val.vint 5), ("b", Val.vint 8)]
    { id := "c1", copies := .vint 5,
      fields := [("copies", Val.vint 2), ("a", Val.vint 7), ("b", Val.vint 8)] }
    rfl
  exact ⟨h.1 "b" (by decide), h.2⟩

/-- C1: whenever a resolution pass over any deck raises any exception,
every piece of the previously committed visible state — hierarchy,
auxiliary trackers, cards, card index, output path, title, and the
general options — is exactly what it was before the failed pass, because
`transactional` commits the staged overlay only on success. -/
theorem C1_failed_pass_preserves_state :
    ∀ (fs : FS) (fuel : Nat) (d : Deck),
      (Deck._interpret_source fs fuel d).2.isSome = true →
      (Deck._interpret_source fs fuel d).1.hierarchy = d.hierarchy ∧
      (Deck._interpret_source fs fuel d).1.sub_sources = d.sub_sources ∧
      (Deck._interpret_source fs fuel d).1.cards = d.cards ∧
      (Deck._interpret_source fs fuel d).1.card_index = d.card_index ∧
      (Deck._interpret_source fs fuel d).1.output = d.output ∧
      (Deck._interpret_source fs fuel d).1.title = d.title ∧
      (Deck._interpret_source fs fuel d).1.icon_path = d.icon_path ∧
      (Deck._interpret_source fs fuel d).1.card_spacing = d.card_spacing ∧
      (Deck._interpret_source fs fuel d).1.embed_styles = d.embed_styles ∧
      (Deck._interpret_source fs fuel d).1.markdown = d.markdown ∧
      (Deck._interpret_source fs fuel d).1 = d := by
  intro fs fuel d h
  cases hb : interpretBody fs fuel { _delegate_ := d, _overrides_ := {} } with
  | ok t =>
    have : (Deck._interpret_source fs fuel d).2 = none := by
      simp [Deck._interpret_source, transactional, hb]
    rw [this] at h
    simp at h
  | error e =>
    have hd : (Deck._interpret_source fs fuel d).1 = d := by
      simp [Deck._interpret_source, transactional, hb]
    rw [hd]
    exact ⟨rfl, rfl, rfl, rfl, rfl, rfl, rfl, rfl, rfl, rfl, rfl⟩

/-- Witness for C1: the deck `d1` (previously resolved successfully
against `fsOk`) undergoes a failing pass once the template file is gone,
and is left exactly as it was. -/
theorem C1_failed_pass_preserves_state_witness :
    (Deck._interpret_source fsNoTemplate 5 d1).2.isSome = true ∧
    (Deck._interpret_source fsNoTemplate 5 d1).1 = d1 :=
  ⟨rfl, (C1_failed_pass_preserves_state fsNoTemplate 5 d1 rfl).2.2.2.2.2.2.2.2.2.2⟩

/-- When every tracked file in the hierarchy exists, the short-circuit
`any(dep.refresh() ...)` succeeds and reports whether any file is newer
than last observed. -/
theorem refreshAny_spec (fs : FS) (l : List SourceFile)
    (hex : ∀ sf ∈ l, fs.fileExists sf.path = true) :
    ∃ l', refreshAny fs l = .ok (l', l.any (isNewer fs)) := by
  induction l with
  | nil => exact ⟨[], rfl⟩
  | cons sf rest ih =>
    have hsf : fs.fileExists sf.path = true := hex sf (by simp)
    cases hn : isNewer fs sf with
    | true =>
      refine ⟨{ sf with _mtime := fs.mtimeOf sf.path } :: rest, ?_⟩
      simp [refreshAny, SourceFile.refresh, FS.getmtime, hsf, isNewer] at hn ⊢
      simp [hn]
    | false =>
      obtain ⟨rest', hrest⟩ := ih (fun x hx => hex x (by simp [hx]))
      refine ⟨{ sf with _mtime := fs.mtimeOf sf.path } :: rest', ?_⟩
      simp [isNewer] at hn
      have hd : decide (sf._mtime < fs.mtimeOf sf.path) = false := by
        simp
        omega
      simp [refreshAny, SourceFile.refresh, FS.getmtime, hsf, hd, hrest, isNewer]

/-- When every auxiliary tracker's file exists, the full-traversal
refresh loop succeeds and reports whether any auxiliary is newer. -/
theorem refreshSubs_spec (fs : FS) (l : List (String × SourceFile))
    (hex : ∀ p ∈ l, fs.fileExists p.2.path = true) :
    ∃ l', refreshSubs fs l = .ok (l', l.any (fun p => isNewer fs p.2)) := by
  induction l with
  | nil => exact ⟨[], rfl⟩
  | cons p rest ih =>
    obtain ⟨k, sf⟩ := p
    have hsf : fs.fileExists sf.path = true := hex (k, sf) (by simp)
    obtain ⟨rest', hrest⟩ := ih (fun x hx => hex x (by simp [hx]))
    refine ⟨(k, { sf with _mtime := fs.mtimeOf sf.path }) :: rest', ?_⟩
    simp [refreshSubs, SourceFile.refresh, FS.getmtime, hsf, hrest, isNewer]

/-- C7: for a deck whose tracked files exist, one sync call (1) runs
exactly one resolution pass (with a re-render when it succeeds) when the
root document is newer than last observed, (2) likewise when the root is
clean but some hierarchy ancestor is newer, (3) re-renders exactly once
without any resolution when root and hierarchy are clean but some
resolved auxiliary file is newer, and (4) does neither when nothing
changed. -/
theorem C7_sync_two_tier :
    ∀ (fs : FS) (fuel : Nat) (d : Deck),
      (fs.fileExists d.source.path = true → isNewer fs d.source = true →
        (Deck.sync fs fuel d).resolutions = 1 ∧
        ((∃ d', (Deck.sync fs fuel d).outcome = .ok d') →
          (Deck.sync fs fuel d).renders = 1)) ∧
      (fs.fileExists d.source.path = true → isNewer fs d.source = false →
        (∀ sf ∈ d.hierarchy, fs.fileExists sf.path = true) →
        d.hierarchy.any (isNewer fs) = true →
        (Deck.sync fs fuel d).resolutions = 1 ∧
        ((∃ d', (Deck.sync fs fuel d).outcome = .ok d') →
          (Deck.sync fs fuel d).renders = 1)) ∧
      (fs.fileExists d.source.path = true → isNewer fs d.source = false →
        (∀ sf ∈ d.hierarchy, fs.fileExists sf.path = true) →
        d.hierarchy.any (isNewer fs) = false →
        (∀ p ∈ d.sub_sources, fs.fileExists p.2.path = true) →
        d.sub_sources.any (fun p => isNewer fs p.2) = true →
        (Deck.sync fs fuel d).resolutions = 0 ∧
        (Deck.sync fs fuel d).renders = 1 ∧
        ∃ d', (Deck.sync fs fuel d).outcome = .ok d') ∧
      (fs.fileExists d.source.path = true → isNewer fs d.source = false →
        (∀ sf ∈ d.hierarchy, fs.fileExists sf.path = true) →
        d.hierarchy.any (isNewer fs) = false →
        (∀ p ∈ d.sub_sources, fs.fileExists p.2.path = true) →
        d.sub_sources.any (fun p => isNewer fs p.2) = false →
        (Deck.sync fs fuel d).resolutions = 0 ∧
        (Deck.sync fs fuel d).renders = 0 ∧
        ∃ d', (Deck.sync fs fuel d).outcome = .ok d') := by
  intro fs fuel d
  refine ⟨?_, ?_, ?_, ?_⟩
  · intro hex hnew
    have hnew' : decide (fs.mtimeOf d.source.path > d.source._mtime) = true := hnew
    cases hi : Deck._interpret_source fs fuel
        { d with source := { d.source with _mtime := fs.mtimeOf d.source.path } } with
    | mk d' oe =>
      cases oe with
      | none =>
        constructor <;>
          simp [Deck.sync, SourceFile.refresh, FS.getmtime, hex, hnew', hi]
      | some e =>
        constructor
        · simp [Deck.sync, SourceFile.refresh, FS.getmtime, hex, hnew', hi]
        · intro ⟨d'', hd⟩
          simp [Deck.sync, SourceFile.refresh, FS.getmtime, hex, hnew', hi] at hd
  · intro hex hclean hhier hany
    have hclean' : decide (fs.mtimeOf d.source.path > d.source._mtime) = false := hclean
    obtain ⟨l', hl⟩ := refreshAny_spec fs d.hierarchy hhier
    rw [hany] at hl
    cases hi : Deck._interpret_source fs fuel
        { d with
          source := { d.source with _mtime := fs.mtimeOf d.source.path },
          hierarchy := l' } with
    | mk d' oe =>
      cases oe with
      | none =>
        constructor <;>
          simp [Deck.sync, SourceFile.refresh, FS.getmtime, hex, hclean', hl, hi]
      | some e =>
        constructor
        · simp [Deck.sync, SourceFile.refresh, FS.getmtime, hex, hclean', hl, hi]
        · intro ⟨d'', hd⟩
          simp [Deck.sync, SourceFile.refresh, FS.getmtime, hex, hclean', hl, hi] at hd
  · intro hex hclean hhier hany hsubs hsany
    have hclean' : decide (fs.mtimeOf d.source.path > d.source._mtime) = false := hclean
    obtain ⟨l', hl⟩ := refreshAny_spec fs d.hierarchy hhier
    rw [hany] at hl
    obtain ⟨s', hs⟩ := refreshSubs_spec fs d.sub_sources hsubs
    rw [hsany] at hs
    refine ⟨?_, ?_, ?_⟩ <;>
      simp [Deck.sync, SourceFile.refresh, FS.getmtime, hex, hclean', hl, hs]
  · intro hex hclean hhier hany hsubs hsany
    have hclean' : decide (fs.mtimeOf d.source.path > d.source._mtime) = false := hclean
    obtain ⟨l', hl⟩ := refreshAny_spec fs d.hierarchy hhier
    rw [hany] at hl
    obtain ⟨s', hs⟩ := refreshSubs_spec fs d.sub_sources hsubs
    rw [hsany] at hs
    refine ⟨?_, ?_, ?_⟩ <;>
      simp [Deck.sync, SourceFile.refresh, FS.getmtime, hex, hclean', hl, hs]

/-- Witness for C7: against the resolved decks `d1` and `dChain`,
touching the root re-resolves and re-renders once, touching only an
ancestor triggers exactly one re-resolution, touching only the template
re-renders without resolving, and touching nothing does neither. -/
theorem C7_sync_two_tier_witness :
    (Deck.sync fsRootNew 5 d1).resolutions = 1 ∧
    (Deck.sync fsRootNew 5 d1).renders = 1 ∧
    (Deck.sync fsHierNew 5 dChain).resolutions = 1 ∧
    (Deck.sync fsAuxNew 5 d1).resolutions = 0 ∧
    (Deck.sync fsAuxNew 5 d1).renders = 1 ∧
    (Deck.sync fsOk 5 d1).resolutions = 0 ∧
    (Deck.sync fsOk 5 d1).renders = 0 := by
  have hier1 : ∀ sf ∈ d1.hierarchy, fsAuxNew.fileExists sf.path = true := by
    intro sf h
    simp [show d1.hierarchy = [] from rfl] at h
  have hier1' : ∀ sf ∈ d1.hierarchy, fsOk.fileExists sf.path = true := by
    intro sf h
    simp [show d1.hierarchy = [] from rfl] at h
  have subs1 : ∀ p ∈ d1.sub_sources, fsAuxNew.fileExists p.2.path = true := by
    intro p h
    rw [show d1.sub_sources = [("template", { path := "/d/deck.html.jinja2", dir := "/d", name := "deck.html.jinja2", base := "deck.html", ext := ".jinja2", _mtime := 100 })] from rfl] at h
    rcases List.mem_cons.mp h with h1 | h1
    · subst h1; rfl
    · cases h1
  have subs1' : ∀ p ∈ d1.sub_sources, fsOk.fileExists p.2.path = true := by
    intro p h
    rw [show d1.sub_sources = [("template", { path := "/d/deck.html.jinja2", dir := "/d", name := "deck.html.jinja2", base := "deck.html", ext := ".jinja2", _mtime := 100 })] from rfl] at h
    rcases List.mem_cons.mp h with h1 | h1
    · subst h1; rfl
    · cases h1
  have hierC : ∀ sf ∈ dChain.hierarchy, fsHierNew.fileExists sf.path = true := by
    intro sf h
    rcases List.mem_cons.mp h with h1 | h1
    · subst h1; rfl
    · cases h1
  have h1 := (C7_sync_two_tier fsRootNew 5 d1).1 rfl rfl
  have h2 := (C7_sync_two_tier fsHierNew 5 dChain).2.1 rfl rfl hierC rfl
  have h3 := (C7_sync_two_tier fsAuxNew 5 d1).2.2.1 rfl rfl hier1 rfl subs1 rfl
  have h4 := (C7_sync_two_tier fsOk 5 d1).2.2.2 rfl rfl hier1' rfl subs1' rfl
  exact ⟨h1.1, h1.2 ⟨_, rfl⟩, h2.1, h3.1, h3.2.1, h4.1, h4.2.1⟩
